import Mathlib

/-!
Shallow embedding of the FLP-Rust-GSP library (a small filter-query language:
parser → canonical AST → two interpreter backends), together with proofs of
the specification claims.

Source files embedded:
- src/lib.rs              : `Node`, `Expression`, conversion from the raw
                            parse tree, `FromStr for Expression`.
- src/parser/atom.rs      : `text`, `array` atoms and the operator tags.
- src/parser/relation.rs  : the `Relation` raw parse tree and its parser.
- src/parser/comparison.rs: absent from the provided sources; the
                            `Comparison` type is reconstructed from the
                            constructor uses in lib.rs, and its parser is
                            modelled from the spec (see `comparison` below).
- src/interpreter/evaluate.rs : boolean-evaluation backend.
- src/interpreter/sqlite.rs   : query-compiling backend.

Rust `HashMap` tables are modelled as association lists with `List.lookup`.
Machine strings are Lean `String`s; Rust byte-lexicographic `&str` ordering
is modelled by code-point lexicographic ordering (they coincide on UTF-8).
-/

/- ===================== Canonical AST (src/lib.rs) ===================== -/

/-- The canonical AST node of lib.rs. In Rust, composite variants hold
`Box<Expression>` where `Expression` is a single-field struct wrapping
`Node`; that transparent wrapper is collapsed here, so children are `Node`
directly. -/
inductive Node where
  | And (left right : Node)
  | Or (left right : Node)
  | Not (expr : Node)
  | Equal (key target : String)
  | EqualCI (key target : String)
  | Greater (key target : String)
  | Less (key target : String)
  | Wildcard (key target : String)
  | Regex (key target : String)
  | Any (key : String) (targets : List String)
  | Null (key : String)
deriving DecidableEq, Repr

/-- Rust's `Expression` is `struct Expression { node: Node }`; collapsed. -/
abbrev Expression := Node

/-- The field name of a leaf node (`none` for And/Or/Not composites). -/
def Node.leafKey : Node → Option String
  | .And _ _ => none
  | .Or _ _ => none
  | .Not _ => none
  | .Equal k _ => some k
  | .EqualCI k _ => some k
  | .Greater k _ => some k
  | .Less k _ => some k
  | .Wildcard k _ => some k
  | .Regex k _ => some k
  | .Any k _ => some k
  | .Null k => some k

/-- All leaf field names of an AST, left to right. -/
def Node.leafKeys : Node → List String
  | .And l r => l.leafKeys ++ r.leafKeys
  | .Or l r => l.leafKeys ++ r.leafKeys
  | .Not e => e.leafKeys
  | .Equal k _ => [k]
  | .EqualCI k _ => [k]
  | .Greater k _ => [k]
  | .Less k _ => [k]
  | .Wildcard k _ => [k]
  | .Regex k _ => [k]
  | .Any k _ => [k]
  | .Null k => [k]

/- ============ Raw parse tree (src/parser/comparison.rs, relation.rs) ============ -/

/-- The raw comparison parse node. The file src/parser/comparison.rs is not
among the provided sources; this type is reconstructed from its uses in
lib.rs (`Comparison::IsEqual(c)` with `c.left.0 : String`, `c.right.0`,
and `IsNull(c)` with `c.0.0 : String`). The `Text` newtype around the field
and operand strings is collapsed. -/
inductive Comparison where
  | IsEqual (left right : String)
  | IsEqualCI (left right : String)
  | IsGreater (left right : String)
  | IsLess (left right : String)
  | IsWildcard (left right : String)
  | IsRegex (left right : String)
  | IsAny (left : String) (right : List String)
  | IsNull (left : String)
deriving DecidableEq, Repr

/-- The field name of a raw comparison. -/
def Comparison.key : Comparison → String
  | .IsEqual l _ => l
  | .IsEqualCI l _ => l
  | .IsGreater l _ => l
  | .IsLess l _ => l
  | .IsWildcard l _ => l
  | .IsRegex l _ => l
  | .IsAny l _ => l
  | .IsNull l => l

/-- The raw relation parse tree of src/parser/relation.rs (`Box` collapsed).
R = relation operand, C = comparison operand; a = and, o = or, N = not. -/
inductive Relation where
  | C (c : Comparison)
  | Rar (left : Relation) (right : Relation)
  | Rac (left : Relation) (right : Comparison)
  | Car (left : Comparison) (right : Relation)
  | Cac (left : Comparison) (right : Comparison)
  | Ror (left : Relation) (right : Relation)
  | Roc (left : Relation) (right : Comparison)
  | Cor (left : Comparison) (right : Relation)
  | Coc (left : Comparison) (right : Comparison)
  | NR (r : Relation)
  | NC (c : Comparison)
deriving DecidableEq, Repr

/-- All comparison field names of a raw relation tree, left to right. -/
def Relation.keys : Relation → List String
  | .C c => [c.key]
  | .Rar l r => l.keys ++ r.keys
  | .Rac l c => l.keys ++ [c.key]
  | .Car c r => [c.key] ++ r.keys
  | .Cac c d => [c.key] ++ [d.key]
  | .Ror l r => l.keys ++ r.keys
  | .Roc l c => l.keys ++ [c.key]
  | .Cor c r => [c.key] ++ r.keys
  | .Coc c d => [c.key] ++ [d.key]
  | .NR r => r.keys
  | .NC c => [c.key]

/-- `impl From<Comparison> for Expression` of lib.rs. -/
def Expression.ofComparison : Comparison → Node
  | .IsEqual l r => .Equal l r
  | .IsEqualCI l r => .EqualCI l r
  | .IsGreater l r => .Greater l r
  | .IsLess l r => .Less l r
  | .IsWildcard l r => .Wildcard l r
  | .IsRegex l r => .Regex l r
  | .IsAny l r => .Any l r
  | .IsNull l => .Null l

/-- `impl From<Box<Relation>> for Expression` of lib.rs. -/
def Expression.ofRelation : Relation → Node
  | .C c => Expression.ofComparison c
  | .Rar l r => .And (Expression.ofRelation l) (Expression.ofRelation r)
  | .Rac l c => .And (Expression.ofRelation l) (Expression.ofComparison c)
  | .Car c r => .And (Expression.ofComparison c) (Expression.ofRelation r)
  | .Cac c d => .And (Expression.ofComparison c) (Expression.ofComparison d)
  | .Ror l r => .Or (Expression.ofRelation l) (Expression.ofRelation r)
  | .Roc l c => .Or (Expression.ofRelation l) (Expression.ofComparison c)
  | .Cor c r => .Or (Expression.ofComparison c) (Expression.ofRelation r)
  | .Coc c d => .Or (Expression.ofComparison c) (Expression.ofComparison d)
  | .NR r => .Not (Expression.ofRelation r)
  | .NC c => .Not (Expression.ofComparison c)

/- ===================== Evaluation backend (src/interpreter/evaluate.rs) ===================== -/

/-- Boolean lexicographic order on character lists: model of Rust `&str`
comparison (byte-lexicographic, which coincides with code-point
lexicographic order on UTF-8 strings). -/
def strLt : List Char → List Char → Bool
  | [], [] => false
  | [], _ :: _ => true
  | _ :: _, [] => false
  | x :: xs, y :: ys => x < y || (x == y && strLt xs ys)

/-- Fuelled shell-glob matcher. Modelled from the spec: the external
`wildmatch` crate used by the default `is_match_wildcard` rule, where `*`
matches any character sequence (including empty) and `?` matches exactly
one character; the whole value must match. Fuel strictly exceeding
pattern length + value length is always sufficient, since every step
shortens the pattern or the value. -/
def globMatchF : Nat → List Char → List Char → Bool
  | 0, _, _ => false
  | _ + 1, [], [] => true
  | _ + 1, [], _ :: _ => false
  | fuel + 1, '*' :: ps, [] => globMatchF fuel ps []
  | fuel + 1, '*' :: ps, v :: vs =>
    globMatchF fuel ps (v :: vs) || globMatchF fuel ('*' :: ps) vs
  | _ + 1, _ :: _, [] => false
  | fuel + 1, p :: ps, v :: vs => (p == '?' || p == v) && globMatchF fuel ps vs

/-- Shell-glob match of `value` against `pattern` (wildmatch model). -/
def wildMatch (pattern value : String) : Bool :=
  globMatchF (pattern.length + value.length + 1) pattern.data value.data

namespace Evaluate

/-- `EvaluateRule` of evaluate.rs: one pluggable comparison function per
leaf kind. -/
structure EvaluateRule where
  is_equal : String → String → Bool
  is_equal_ci : String → String → Bool
  is_greater_than : String → String → Bool
  is_less_than : String → String → Bool
  is_match_wildcard : String → String → Bool
  is_match_regex : String → String → Bool
  is_in : String → List String → Bool
  is_none : String → Bool

/-- `impl Default for EvaluateRule`. The external `regex` crate engine is
abstracted as the parameter `rm`; the Rust default folds compilation of the
pattern (malformed pattern → `false`) and matching into one function, and
`rm target value` stands for that whole composite. `to_lowercase` is
modelled by `String.toLower`. In each binary rule the first argument is the
record value and the second the query operand, as in the Rust source. -/
def EvaluateRule.default (rm : String → String → Bool) : EvaluateRule where
  is_equal := fun value target => value == target
  is_equal_ci := fun value target => value.toLower == target.toLower
  is_greater_than := fun value target => strLt target.data value.data
  is_less_than := fun value target => strLt value.data target.data
  is_match_wildcard := fun value target => wildMatch target value
  is_match_regex := fun value target => rm target value
  is_in := fun value target => target.contains value
  is_none := fun value => value.toLower == "none" || value.toLower == "null"

/-- `EvaluateRules = HashMap<String, EvaluateRule>` as an association list. -/
abbrev EvaluateRules := List (String × EvaluateRule)

/-- `EvaluatePairs = HashMap<String, String>` as an association list. -/
abbrev EvaluatePairs := List (String × String)

/-- `interpret_expression` of evaluate.rs: total boolean evaluation. Each
leaf looks up the rule, then the value; either lookup failing yields
`false`, mirroring the early returns in the Rust source. -/
def interpret_expression (expression : Node) (rules : EvaluateRules)
    (pairs : EvaluatePairs) : Bool :=
  match expression with
  | .And left right =>
    interpret_expression left rules pairs && interpret_expression right rules pairs
  | .Or left right =>
    interpret_expression left rules pairs || interpret_expression right rules pairs
  | .Not expr => !interpret_expression expr rules pairs
  | .Equal key target =>
    match rules.lookup key with
    | none => false
    | some rule =>
      match pairs.lookup key with
      | none => false
      | some value => rule.is_equal value target
  | .EqualCI key target =>
    match rules.lookup key with
    | none => false
    | some rule =>
      match pairs.lookup key with
      | none => false
      | some value => rule.is_equal_ci value target
  | .Greater key target =>
    match rules.lookup key with
    | none => false
    | some rule =>
      match pairs.lookup key with
      | none => false
      | some value => rule.is_greater_than value target
  | .Less key target =>
    match rules.lookup key with
    | none => false
    | some rule =>
      match pairs.lookup key with
      | none => false
      | some value => rule.is_less_than value target
  | .Wildcard key target =>
    match rules.lookup key with
    | none => false
    | some rule =>
      match pairs.lookup key with
      | none => false
      | some value => rule.is_match_wildcard value target
  | .Regex key target =>
    match rules.lookup key with
    | none => false
    | some rule =>
      match pairs.lookup key with
      | none => false
      | some value => rule.is_match_regex value target
  | .Any key targets =>
    match rules.lookup key with
    | none => false
    | some rule =>
      match pairs.lookup key with
      | none => false
      | some value => rule.is_in value targets
  | .Null key =>
    match rules.lookup key with
    | none => false
    | some rule =>
      match pairs.lookup key with
      | none => false
      | some value => rule.is_none value

/-- `interpret` of evaluate.rs. -/
def interpret (expression : Node) (rules : EvaluateRules)
    (pairs : EvaluatePairs) : Bool :=
  interpret_expression expression rules pairs

end Evaluate

/- ===================== Compiling backend (src/interpreter/sqlite.rs) ===================== -/

/-- Fuelled model of Rust `str::replace` on character lists: replace every
non-overlapping occurrence of `pat` in the input, left to right. Fuel at
least the input length is always sufficient, since every step consumes at
least one character; all uses in this development have a non-empty `pat`
(for empty `pat` the input is returned unchanged, a case Rust's empty
pattern treats differently but which never arises here). -/
def replaceAllF (pat rep : List Char) : Nat → List Char → List Char
  | _, [] => []
  | 0, s => s
  | fuel + 1, c :: cs =>
    if !pat.isEmpty && pat.isPrefixOf (c :: cs) then
      rep ++ replaceAllF pat rep fuel ((c :: cs).drop pat.length)
    else c :: replaceAllF pat rep fuel cs

/-- Rust `s.replace(pat, rep)` on strings. -/
def strReplace (s pat rep : String) : String :=
  ⟨replaceAllF pat.data rep.data s.data.length s.data⟩

namespace Sqlite

/-- The error enum of sqlite.rs. The Rust variants wrap the library error
objects (`ParseIntError` etc.); here each parse-error variant carries the
offending literal instead, and `unknownKey` carries the field name as in
the source. -/
inductive Error where
  | parseInt (s : String)
  | parseFloat (s : String)
  | parseBool (s : String)
  | parseChrono (s : String)
  | unknownKey (k : String)
deriving DecidableEq, Repr

/-- `SqliteType` of sqlite.rs: a typed-value shape, optionally carrying a
parsed payload. The `Real` (f64) payload type `F` and the chrono
`DateTime<Utc>` payload type `D` are parameters: no claim depends on their
concrete semantics. `i64`/`i32` payloads are modelled as `Int`; the blob
payload (the operand's UTF-8 bytes verbatim) is modelled by the operand
string itself, which carries the same information. -/
inductive SqliteType (F D : Type) where
  | BigInt (v : Option Int)
  | Blob (v : Option String)
  | Boolean (v : Option Bool)
  | DateTime (v : Option D)
  | Integer (v : Option Int)
  | Real (v : Option F)
  | Text (v : Option String)
deriving DecidableEq, Repr

/-- The external textual parsers used by `replace_and_return` (Rust std
`str::parse` for i64/bool/i32/f64 and chrono's RFC-3339 parsing); they are
abstracted as a record of partial functions. -/
structure Parsers (F D : Type) where
  parseI64 : String → Option Int
  parseBool : String → Option Bool
  parseDateTime : String → Option D
  parseI32 : String → Option Int
  parseF64 : String → Option F

/-- `SqliteType::replace_and_return` of sqlite.rs: parse the literal `s`
against the declared shape, keeping the shape and replacing the payload;
parse failure aborts with the corresponding error. -/
def SqliteType.replace_and_return {F D : Type} (p : Parsers F D) :
    SqliteType F D → String → Except Error (SqliteType F D)
  | .BigInt _, s =>
    match p.parseI64 s with
    | some n => .ok (.BigInt (some n))
    | none => .error (.parseInt s)
  | .Blob _, s => .ok (.Blob (some s))
  | .Boolean _, s =>
    match p.parseBool s with
    | some b => .ok (.Boolean (some b))
    | none => .error (.parseBool s)
  | .DateTime _, s =>
    match p.parseDateTime s with
    | some d => .ok (.DateTime (some d))
    | none => .error (.parseChrono s)
  | .Integer _, s =>
    match p.parseI32 s with
    | some n => .ok (.Integer (some n))
    | none => .error (.parseInt s)
  | .Real _, s =>
    match p.parseF64 s with
    | some x => .ok (.Real (some x))
    | none => .error (.parseFloat s)
  | .Text _, s => .ok (.Text (some s))

/-- `SqliteRenames = HashMap<String, String>` as an association list. -/
abbrev SqliteRenames := List (String × String)

/-- `SqliteTypes = HashMap<String, SqliteType>` as an association list. -/
abbrev SqliteTypes (F D : Type) := List (String × SqliteType F D)

/-- Translation of the operand of one leaf: the type-table lookup followed
by `replace_and_return`, exactly the expression
`types.get(key).ok_or(Error::UnknownKey(...))?.replace_and_return(target)`
that sqlite.rs repeats in every leaf branch (and in each iteration of the
`Any` loop). -/
def keyBinder {F D : Type} (p : Parsers F D) (types : SqliteTypes F D)
    (key : String) : String → Except Error (SqliteType F D) :=
  fun target =>
    match types.lookup key with
    | none => .error (.unknownKey key)
    | some ty => ty.replace_and_return p target

/-- The bind-collecting loop of the `Node::Any` branch of sqlite.rs: run
`f` on each candidate in input order, pushing results; the first error
aborts. -/
def bindAll {F D : Type} (f : String → Except Error (SqliteType F D)) :
    List String → Except Error (List (SqliteType F D))
  | [] => .ok []
  | t :: ts =>
    match f t with
    | .error e => .error e
    | .ok b =>
      match bindAll f ts with
      | .error e => .error e
      | .ok bs => .ok (b :: bs)

/-- `interpret_expression` of sqlite.rs: compile an AST to a fragment and
an ordered bind list, or fail. Rust's `format!` strings are written with
`++`; `renames.get(key).unwrap_or(key)` is `(renames.lookup key).getD key`;
the `?` early returns are the explicit error matches. -/
def interpret_expression {F D : Type} (p : Parsers F D) (expression : Node)
    (renames : SqliteRenames) (types : SqliteTypes F D) :
    Except Error (String × List (SqliteType F D)) :=
  match expression with
  | .And left right =>
    match interpret_expression p left renames types with
    | .error e => .error e
    | .ok (left_clause, left_types) =>
      match interpret_expression p right renames types with
      | .error e => .error e
      | .ok (right_clause, right_types) =>
        .ok ("(" ++ left_clause ++ " AND " ++ right_clause ++ ")",
          left_types ++ right_types)
  | .Or left right =>
    match interpret_expression p left renames types with
    | .error e => .error e
    | .ok (left_clause, left_types) =>
      match interpret_expression p right renames types with
      | .error e => .error e
      | .ok (right_clause, right_types) =>
        .ok ("(" ++ left_clause ++ " OR " ++ right_clause ++ ")",
          left_types ++ right_types)
  | .Not expr =>
    match interpret_expression p expr renames types with
    | .error e => .error e
    | .ok (clause, ts) => .ok ("(NOT " ++ clause ++ ")", ts)
  | .Equal key target =>
    match keyBinder p types key target with
    | .error e => .error e
    | .ok b => .ok ((renames.lookup key).getD key ++ " = ?", [b])
  | .EqualCI key target =>
    match keyBinder p types key target with
    | .error e => .error e
    | .ok b => .ok ((renames.lookup key).getD key ++ " LIKE ?", [b])
  | .Greater key target =>
    match keyBinder p types key target with
    | .error e => .error e
    | .ok b => .ok ((renames.lookup key).getD key ++ " > ?", [b])
  | .Less key target =>
    match keyBinder p types key target with
    | .error e => .error e
    | .ok b => .ok ((renames.lookup key).getD key ++ " < ?", [b])
  | .Wildcard key target =>
    match keyBinder p types key
        (strReplace (strReplace target "*" "%") "?" "_") with
    | .error e => .error e
    | .ok b => .ok ((renames.lookup key).getD key ++ " LIKE ?", [b])
  | .Regex key target =>
    match keyBinder p types key target with
    | .error e => .error e
    | .ok b => .ok ((renames.lookup key).getD key ++ " = ?", [b])
  | .Any key targets =>
    let sql :=
      if targets.isEmpty then "FALSE"
      else
        (renames.lookup key).getD key ++ " IN (" ++
          String.intercalate ", " (targets.map fun _ => "?") ++ ")"
    match bindAll (keyBinder p types key) targets with
    | .error e => .error e
    | .ok binds => .ok (sql, binds)
  | .Null key =>
    if (types.lookup key).isNone then .error (.unknownKey key)
    else .ok ((renames.lookup key).getD key ++ " IS NULL", [])

/-- `interpret` of sqlite.rs. -/
def interpret {F D : Type} (p : Parsers F D) (expression : Node)
    (renames : SqliteRenames) (types : SqliteTypes F D) :
    Except Error (String × List (SqliteType F D)) :=
  interpret_expression p expression renames types

end Sqlite

/-- A trivial instantiation of the abstracted external parsers, used for
concrete evaluations: every fallible textual parse fails. -/
def unitParsers : Sqlite.Parsers Unit Unit where
  parseI64 := fun _ => none
  parseBool := fun _ => none
  parseDateTime := fun _ => none
  parseI32 := fun _ => none
  parseF64 := fun _ => none

/-- A trivial instantiation of the abstracted external regex matcher. -/
def rmFalse : String → String → Bool := fun _ _ => false

/- ===================== Parser (src/parser/atom.rs, comparison.rs, relation.rs) ===================== -/

/-- nom `space0` (space and tab only). A parser here is a function from the
remaining input (a character list) to `none` on failure or
`some (rest, value)` on success, mirroring nom's `IResult`. -/
def space0 (input : List Char) : List Char :=
  input.dropWhile fun ch => ch == ' ' || ch == '\t'

/-- The content loop of nom's
`escaped(none_of("\\\""), '\\', one_of("\\\""))` in atom.rs `text`: consume
a maximal sequence of units, each either a character other than backslash
and double quote, or a backslash followed by a backslash or double quote;
stop before a double quote; fail on an invalid escape. Returns the raw
consumed characters and the rest. -/
def escUnits : List Char → Option (List Char × List Char)
  | [] => some ([], [])
  | '\\' :: c :: rest =>
    if c == '\\' || c == '"' then
      match escUnits rest with
      | some (consumed, r) => some ('\\' :: c :: consumed, r)
      | none => none
    else none
  | ['\\'] => none
  | c :: rest =>
    if c == '"' then some ([], c :: rest)
    else
      match escUnits rest with
      | some (consumed, r) => some (c :: consumed, r)
      | none => none

/-- The unescaping in atom.rs `text`:
`s.replace("\\\\", "\\").replace("\\\"", "\"")`. -/
def unescape (raw : List Char) : String :=
  strReplace (strReplace ⟨raw⟩ "\\\\" "\\") "\\\"" "\""

/-- atom.rs `text`: a double-quoted literal with backslash escapes for
backslash and double quote, possibly empty, unescaped on success. The
second branch mirrors the `alt((esc, tag("")))` fallback to empty content
when the escape loop fails. -/
def text : List Char → Option (List Char × String)
  | '"' :: rest =>
    (match escUnits rest with
    | some (raw, r1) =>
      match r1 with
      | '"' :: r2 => some (r2, unescape raw)
      | _ => none
    | none =>
      match rest with
      | '"' :: r2 => some (r2, "")
      | _ => none)
  | _ => none

/-- The iteration of nom `separated_list0((space0, ",", space0), text)`
after a first element: repeatedly try separator then element, stopping
(without consuming the separator) when either fails. Fuel at least the
input length is always sufficient, since each iteration consumes at least
the two quotes of a text literal. -/
def sepLoopF : Nat → List Char → List String → List Char × List String
  | 0, input, acc => (input, acc)
  | fuel + 1, input, acc =>
    match space0 input with
    | ',' :: r =>
      (match text (space0 r) with
      | some (r2, t) => sepLoopF fuel r2 (acc ++ [t])
      | none => (input, acc))
    | _ => (input, acc)

/-- atom.rs `array`: bracketed, comma-separated text literals with optional
surrounding whitespace, zero or more elements. -/
def array (input : List Char) : Option (List Char × List String) :=
  match input with
  | '[' :: r0 =>
    (match text (space0 r0) with
    | some (r2, t) =>
      match sepLoopF r2.length r2 [t] with
      | (r3, items) =>
        match space0 r3 with
        | ']' :: r5 => some (r5, items)
        | _ => none
    | none =>
      match space0 (space0 r0) with
      | ']' :: r5 => some (r5, [])
      | _ => none)
  | _ => none

/-- The comparison operator tags of atom.rs, mapped to the constructor the
raw comparison uses, in the spec's alternation order
`'=' | '~' | '>' | '<' | '*' | '$'`. -/
def cmpOp : List Char → Option (List Char × (String → String → Comparison))
  | '=' :: r => some (r, Comparison.IsEqual)
  | '~' :: r => some (r, Comparison.IsEqualCI)
  | '>' :: r => some (r, Comparison.IsGreater)
  | '<' :: r => some (r, Comparison.IsLess)
  | '*' :: r => some (r, Comparison.IsWildcard)
  | '$' :: r => some (r, Comparison.IsRegex)
  | _ => none

/-- First comparison alternative: `text op-compare text`. -/
def cmpBinary (input : List Char) : Option (List Char × Comparison) :=
  match text input with
  | none => none
  | some (r1, left) =>
    match cmpOp (space0 r1) with
    | none => none
    | some (r2, mk) =>
      match text (space0 r2) with
      | none => none
      | some (r3, right) => some (r3, mk left right)

/-- Second comparison alternative: membership, `text '?' array`. -/
def cmpAny (input : List Char) : Option (List Char × Comparison) :=
  match text input with
  | none => none
  | some (r1, left) =>
    match space0 r1 with
    | '?' :: r2 =>
      (match array (space0 r2) with
      | none => none
      | some (r3, items) => some (r3, Comparison.IsAny left items))
    | _ => none

/-- Third comparison alternative: null check, `text '-'`. -/
def cmpNull (input : List Char) : Option (List Char × Comparison) :=
  match text input with
  | none => none
  | some (r1, left) =>
    match space0 r1 with
    | '-' :: r2 => some (r2, Comparison.IsNull left)
    | _ => none

/-- Modelled from the spec: the file src/parser/comparison.rs is absent
from the provided sources. Per the spec grammar (§4.1) a comparison is a
field text literal followed by a compare operator and an operand text
literal, or a `?` and an array, or a `-`; the mandatory surrounding
parentheses are supplied by the relation productions of relation.rs, each
of which wraps its operands in its own parenthesis/operator tokens, and
whitespace around tokens is optional. Ordered alternation, first match
wins. -/
def comparison (input : List Char) : Option (List Char × Comparison) :=
  (cmpBinary input).orElse fun _ =>
    (cmpAny input).orElse fun _ => cmpNull input

/-- The `c` production of relation.rs: `'(' comparison ')'` with optional
inner whitespace. -/
def cRel (input : List Char) : Option (List Char × Relation) :=
  match input with
  | '(' :: i0 =>
    (match comparison (space0 i0) with
    | none => none
    | some (i1, c) =>
      match space0 i1 with
      | ')' :: i2 => some (i2, Relation.C c)
      | _ => none)
  | _ => none

/-- The `bi_relation!` production shape of relation.rs:
`'(' left oper right ')'` with optional whitespace between tokens. -/
def biRel {A B : Type} (lp : List Char → Option (List Char × A)) (opc : Char)
    (rp : List Char → Option (List Char × B)) (mk : A → B → Relation)
    (input : List Char) : Option (List Char × Relation) :=
  match input with
  | '(' :: i0 =>
    (match lp (space0 i0) with
    | none => none
    | some (i1, l) =>
      match space0 i1 with
      | c :: i2 =>
        if c == opc then
          match rp (space0 i2) with
          | none => none
          | some (i3, r) =>
            match space0 i3 with
            | ')' :: i4 => some (i4, mk l r)
            | _ => none
        else none
      | [] => none)
  | _ => none

/-- The `uni_relation!` production shape of relation.rs:
`'(' '!' target ')'` with optional whitespace between tokens. -/
def uniRel {A : Type} (tp : List Char → Option (List Char × A))
    (mk : A → Relation) (input : List Char) :
    Option (List Char × Relation) :=
  match input with
  | '(' :: i0 =>
    (match space0 i0 with
    | '!' :: i1 =>
      (match tp (space0 i1) with
      | none => none
      | some (i2, t) =>
        match space0 i2 with
        | ')' :: i3 => some (i3, mk t)
        | _ => none)
    | _ => none)
  | _ => none

/-- relation.rs `relation`: ordered alternation over the eleven
productions, in source order `c, rar, rac, car, cac, ror, roc, cor, coc,
nr, nc`. Fuelled to make the recursion structural: every recursive
occurrence is applied strictly inside at least one consumed opening
parenthesis, so fuel strictly greater than the input length is always
sufficient. -/
def relation : Nat → List Char → Option (List Char × Relation)
  | 0, _ => none
  | fuel + 1, input =>
    (cRel input).orElse fun _ =>
    (biRel (relation fuel) '&' (relation fuel) Relation.Rar input).orElse fun _ =>
    (biRel (relation fuel) '&' comparison Relation.Rac input).orElse fun _ =>
    (biRel comparison '&' (relation fuel) Relation.Car input).orElse fun _ =>
    (biRel comparison '&' comparison Relation.Cac input).orElse fun _ =>
    (biRel (relation fuel) '|' (relation fuel) Relation.Ror input).orElse fun _ =>
    (biRel (relation fuel) '|' comparison Relation.Roc input).orElse fun _ =>
    (biRel comparison '|' (relation fuel) Relation.Cor input).orElse fun _ =>
    (biRel comparison '|' comparison Relation.Coc input).orElse fun _ =>
    (uniRel (relation fuel) Relation.NR input).orElse fun _ =>
    uniRel comparison Relation.NC input

/-- Run the top-level relation parser on a query string, as
`parser::relation::relation(s)` is invoked in lib.rs: the result is the
unconsumed rest of the input and the raw parse tree. -/
def relationRun (s : String) : Option (List Char × Relation) :=
  relation (s.length + 1) s.data

/-- The crate error enum of lib.rs; `Parser` carries the human-readable
nom error rendering (its exact text is not modelled). -/
inductive Error where
  | Parser (msg : String)
deriving DecidableEq, Repr

/-- `impl FromStr for Expression` of lib.rs: run the relation parser, map
a parse failure to `Error::Parser`, take the parsed tree (component `.1`
of nom's `(rest, value)` pair, discarding `rest`) and convert it. -/
def Expression.fromStr (s : String) : Except Error Expression :=
  match relationRun s with
  | some (_, r) => .ok (Expression.ofRelation r)
  | none => .error (.Parser "syntax error")

/- ===================== Helper lemmas ===================== -/

/-- In the evaluation backend, a leaf whose field name misses the rule
table or the value record evaluates to false. -/
theorem Evaluate.leaf_absent_false (n : Node) (k : String)
    (rules : Evaluate.EvaluateRules) (pairs : Evaluate.EvaluatePairs)
    (hk : n.leafKey = some k)
    (h : rules.lookup k = none ∨ pairs.lookup k = none) :
    Evaluate.interpret_expression n rules pairs = false := by
  cases n <;> simp [Node.leafKey] at hk <;> subst hk <;>
    rcases h with h | h <;>
      simp [Evaluate.interpret_expression, h] <;> (try split <;> rfl)

/-- The leaf field names of the converted form of a raw comparison. -/
theorem ofComparison_leafKeys (c : Comparison) :
    (Expression.ofComparison c).leafKeys = [c.key] := by
  cases c <;> rfl

/-- A successful bind loop produces exactly one bind per candidate. -/
theorem Sqlite.bindAll_ok_length {F D : Type}
    (f : String → Except Sqlite.Error (Sqlite.SqliteType F D)) :
    ∀ (ts : List String) (bs : List (Sqlite.SqliteType F D)),
      Sqlite.bindAll f ts = .ok bs → bs.length = ts.length := by
  intro ts
  induction ts with
  | nil =>
    intro bs h
    simp [Sqlite.bindAll] at h
    simp [h]
  | cons t ts ih =>
    intro bs h
    cases hft : f t with
    | error e => simp [Sqlite.bindAll, hft] at h
    | ok b =>
      cases hrest : Sqlite.bindAll f ts with
      | error e => simp [Sqlite.bindAll, hft, hrest] at h
      | ok bs' =>
        simp [Sqlite.bindAll, hft, hrest] at h
        subst h
        simp [ih bs' hrest]

/- ===================== Claims ===================== -/

/-- C1 (amended): whenever the top-level relation parser succeeds on a
query string, `Expression::from_str` returns the Expression converted from
the parsed tree and silently discards any trailing unconsumed input; no
syntax error is raised for trailing input. -/
theorem c1_trailing_input_ignored (s : String) (rest : List Char)
    (r : Relation) (h : relationRun s = some (rest, r)) :
    Expression.fromStr s = Except.ok (Expression.ofRelation r) := by
  simp [Expression.fromStr, h]

/-- C1 witness: a concrete parse with two trailing characters succeeds. -/
theorem c1_trailing_input_witness :
    Expression.fromStr "(\"f\" = \"g\")zz" = Except.ok (Node.Equal "f" "g") :=
  c1_trailing_input_ignored _ ['z', 'z']
    (Relation.C (Comparison.IsEqual "f" "g")) rfl

/-- C1 counterexample: the query `("a" = "b")x` is a well-formed top-level
relation followed by the non-empty trailing input `x`, yet
`Expression::from_str` returns an Expression, not a syntax error. -/
theorem c1_trailing_input_counterexample :
    relationRun "(\"a\" = \"b\")x" =
        some (['x'], Relation.C (Comparison.IsEqual "a" "b")) ∧
      Expression.fromStr "(\"a\" = \"b\")x" = Except.ok (Node.Equal "a" "b") :=
  ⟨rfl, rfl⟩

/-- C2 (amended): compiling any leaf whose field name is absent from the
type table fails with an unknown-field error naming that field — for all
leaf kinds except a membership (Any) leaf with an empty candidate list,
whose bind loop never consults the type table. This holds for every
rename table and every expression built from such a leaf. -/
theorem c2_unknown_field_error {F D : Type} (p : Sqlite.Parsers F D)
    (n : Node) (k : String) (renames : Sqlite.SqliteRenames)
    (types : Sqlite.SqliteTypes F D) (hk : n.leafKey = some k)
    (ht : types.lookup k = none) (hne : ∀ key, n ≠ Node.Any key []) :
    Sqlite.interpret_expression p n renames types =
      Except.error (Sqlite.Error.unknownKey k) := by
  cases n with
  | And l r => simp [Node.leafKey] at hk
  | Or l r => simp [Node.leafKey] at hk
  | Not e => simp [Node.leafKey] at hk
  | Equal key t =>
    simp [Node.leafKey] at hk
    subst hk
    simp [Sqlite.interpret_expression, Sqlite.keyBinder, ht]
  | EqualCI key t =>
    simp [Node.leafKey] at hk
    subst hk
    simp [Sqlite.interpret_expression, Sqlite.keyBinder, ht]
  | Greater key t =>
    simp [Node.leafKey] at hk
    subst hk
    simp [Sqlite.interpret_expression, Sqlite.keyBinder, ht]
  | Less key t =>
    simp [Node.leafKey] at hk
    subst hk
    simp [Sqlite.interpret_expression, Sqlite.keyBinder, ht]
  | Wildcard key t =>
    simp [Node.leafKey] at hk
    subst hk
    simp [Sqlite.interpret_expression, Sqlite.keyBinder, ht]
  | Regex key t =>
    simp [Node.leafKey] at hk
    subst hk
    simp [Sqlite.interpret_expression, Sqlite.keyBinder, ht]
  | Any key ts =>
    simp [Node.leafKey] at hk
    subst hk
    cases ts with
    | nil => exact absurd rfl (hne _)
    | cons t ts =>
      simp [Sqlite.interpret_expression, Sqlite.bindAll, Sqlite.keyBinder, ht]
  | Null key =>
    simp [Node.leafKey] at hk
    subst hk
    simp [Sqlite.interpret_expression, ht]

/-- C2 witness: a null-check leaf on a field absent from an empty type
table fails with the unknown-field error naming it. -/
theorem c2_unknown_field_witness :
    Sqlite.interpret_expression unitParsers (Node.Null "q") [] [] =
      Except.error (Sqlite.Error.unknownKey "q") :=
  c2_unknown_field_error unitParsers (Node.Null "q") "q" [] [] rfl rfl
    (fun _ h => Node.noConfusion h)

/-- C2 counterexample: a membership leaf with an empty candidate list on a
field absent from the type table does not fail; it compiles to `FALSE`
with no binds. -/
theorem c2_unknown_field_counterexample :
    Sqlite.interpret_expression unitParsers (Node.Any "k" []) [] [] =
      Except.ok ("FALSE", []) :=
  rfl

/-- C3: boolean evaluation is a total function into Bool (no error
channel), and any leaf whose field name misses the rule table or the value
record evaluates to false. -/
theorem c3_evaluate_total (e : Node) (rules : Evaluate.EvaluateRules)
    (pairs : Evaluate.EvaluatePairs) :
    (Evaluate.interpret e rules pairs = true ∨
        Evaluate.interpret e rules pairs = false) ∧
      (∀ k, e.leafKey = some k →
        (rules.lookup k = none ∨ pairs.lookup k = none) →
        Evaluate.interpret e rules pairs = false) := by
  refine ⟨?_, ?_⟩
  · cases h : Evaluate.interpret e rules pairs
    · exact Or.inr rfl
    · exact Or.inl rfl
  · intro k hk h
    exact Evaluate.leaf_absent_false e k rules pairs hk h

/-- C3 witness: an equality leaf on a field absent from both tables
evaluates to false. -/
theorem c3_evaluate_total_witness :
    Evaluate.interpret (Node.Equal "k" "x") [] [] = false :=
  (c3_evaluate_total (Node.Equal "k" "x") [] []).2 "k" rfl (Or.inl rfl)

/-- C10: a negated comparison leaf on a field absent from the rule table
or the value record evaluates to true (the inner leaf is false, the
negation true), for every leaf kind. -/
theorem c10_negated_missing_leaf (n : Node) (k : String)
    (rules : Evaluate.EvaluateRules) (pairs : Evaluate.EvaluatePairs)
    (hk : n.leafKey = some k)
    (h : rules.lookup k = none ∨ pairs.lookup k = none) :
    Evaluate.interpret (Node.Not n) rules pairs = true := by
  have hfalse := Evaluate.leaf_absent_false n k rules pairs hk h
  simp [Evaluate.interpret, Evaluate.interpret_expression, hfalse]

/-- C10 witness: the negation of a greater-than leaf on a field with no
rule entry evaluates to true. -/
theorem c10_negated_missing_leaf_witness :
    Evaluate.interpret (Node.Not (Node.Greater "age" "30")) []
      [("age", "25")] = true :=
  c10_negated_missing_leaf (Node.Greater "age" "30") "age" [] [("age", "25")]
    rfl (Or.inl rfl)

/-- C9 (amended): the raw-tree-to-AST conversion preserves field names
exactly: the leaf field names of the converted Expression are precisely
the comparison field texts of the raw parse tree, in order. Since the
text atom accepts the empty literal, a parsed field name may be empty and
the unconditional non-emptiness invariant fails (see the counterexample). -/
theorem c9_field_names_preserved (r : Relation) :
    (Expression.ofRelation r).leafKeys = r.keys := by
  induction r with
  | C c => simpa [Expression.ofRelation, Relation.keys] using ofComparison_leafKeys c
  | Rar l r ihl ihr =>
    simp [Expression.ofRelation, Node.leafKeys, Relation.keys, ihl, ihr]
  | Rac l c ih =>
    simp [Expression.ofRelation, Node.leafKeys, Relation.keys, ih,
      ofComparison_leafKeys]
  | Car c r ih =>
    simp [Expression.ofRelation, Node.leafKeys, Relation.keys, ih,
      ofComparison_leafKeys]
  | Cac c d =>
    simp [Expression.ofRelation, Node.leafKeys, Relation.keys,
      ofComparison_leafKeys]
  | Ror l r ihl ihr =>
    simp [Expression.ofRelation, Node.leafKeys, Relation.keys, ihl, ihr]
  | Roc l c ih =>
    simp [Expression.ofRelation, Node.leafKeys, Relation.keys, ih,
      ofComparison_leafKeys]
  | Cor c r ih =>
    simp [Expression.ofRelation, Node.leafKeys, Relation.keys, ih,
      ofComparison_leafKeys]
  | Coc c d =>
    simp [Expression.ofRelation, Node.leafKeys, Relation.keys,
      ofComparison_leafKeys]
  | NR r ih =>
    simp [Expression.ofRelation, Node.leafKeys, Relation.keys, ih]
  | NC c =>
    simp [Expression.ofRelation, Node.leafKeys, Relation.keys,
      ofComparison_leafKeys]

/-- C9 witness: field-name preservation at a concrete raw tree. -/
theorem c9_field_names_witness :
    (Expression.ofRelation (Relation.C (Comparison.IsNull "note"))).leafKeys =
      (Relation.C (Comparison.IsNull "note")).keys :=
  c9_field_names_preserved (Relation.C (Comparison.IsNull "note"))

/-- C9 counterexample: the query `("" = "a")` parses successfully and its
only leaf has the empty string as field name, refuting the invariant that
every parsed leaf field name is non-empty. -/
theorem c9_empty_field_counterexample :
    Expression.fromStr "(\"\" = \"a\")" = Except.ok (Node.Equal "" "a") ∧
      (Node.Equal "" "a").leafKeys = [""] :=
  ⟨rfl, rfl⟩

/-- C4: a membership leaf with an empty candidate list compiles to exactly
the fragment `FALSE` with an empty bind list for every rename and type
table; the default evaluation membership rule returns false on the empty
candidate list for every value, so such a leaf evaluates to false whenever
the field has the default rule; and a non-empty candidate list compiles to
`col IN (?, ?, …)` with one bind per candidate, in input order. -/
theorem c4_membership {F D : Type} (p : Sqlite.Parsers F D)
    (rm : String → String → Bool) (k : String) :
    (∀ (renames : Sqlite.SqliteRenames) (types : Sqlite.SqliteTypes F D),
        Sqlite.interpret_expression p (Node.Any k []) renames types =
          Except.ok ("FALSE", [])) ∧
      (∀ v : String, (Evaluate.EvaluateRule.default rm).is_in v [] = false) ∧
      (∀ (rules : Evaluate.EvaluateRules) (pairs : Evaluate.EvaluatePairs),
        rules.lookup k = some (Evaluate.EvaluateRule.default rm) →
        Evaluate.interpret_expression (Node.Any k []) rules pairs = false) ∧
      (∀ (renames : Sqlite.SqliteRenames) (types : Sqlite.SqliteTypes F D)
          (ts : List String) (bs : List (Sqlite.SqliteType F D)),
        ts ≠ [] →
        Sqlite.bindAll (Sqlite.keyBinder p types k) ts = .ok bs →
        Sqlite.interpret_expression p (Node.Any k ts) renames types =
            Except.ok ((renames.lookup k).getD k ++ " IN (" ++
              String.intercalate ", " (ts.map fun _ => "?") ++ ")", bs) ∧
          bs.length = ts.length) := by
  refine ⟨fun renames types => rfl, fun v => rfl, ?_, ?_⟩
  · intro rules pairs hr
    cases hv : pairs.lookup k with
    | none => simp [Evaluate.interpret_expression, hr, hv]
    | some v => simp [Evaluate.interpret_expression, hr, hv,
        Evaluate.EvaluateRule.default]
  · intro renames types ts bs hne hbs
    refine ⟨?_, Sqlite.bindAll_ok_length _ ts bs hbs⟩
    cases ts with
    | nil => exact absurd rfl hne
    | cons t ts => simp [Sqlite.interpret_expression, hbs]

/-- C4 witness: concrete empty and two-candidate membership leaves. -/
theorem c4_membership_witness :
    Sqlite.interpret_expression unitParsers (Node.Any "k" [])
        [("k", "col")] [] = Except.ok ("FALSE", []) ∧
      (Evaluate.EvaluateRule.default rmFalse).is_in "v" [] = false ∧
      Evaluate.interpret_expression (Node.Any "k" [])
        [("k", Evaluate.EvaluateRule.default rmFalse)] [("k", "v")] = false ∧
      Sqlite.interpret_expression unitParsers (Node.Any "k" ["a", "b"]) []
        [("k", Sqlite.SqliteType.Text none)] =
        Except.ok ("k IN (?, ?)",
          [Sqlite.SqliteType.Text (some "a"), Sqlite.SqliteType.Text (some "b")]) :=
  ⟨(c4_membership unitParsers rmFalse "k").1 [("k", "col")] [],
    (c4_membership unitParsers rmFalse "k").2.1 "v",
    (c4_membership unitParsers rmFalse "k").2.2.1
      [("k", Evaluate.EvaluateRule.default rmFalse)] [("k", "v")] rfl,
    ((c4_membership unitParsers rmFalse "k").2.2.2 []
      [("k", Sqlite.SqliteType.Text none)] ["a", "b"]
      [Sqlite.SqliteType.Text (some "a"), Sqlite.SqliteType.Text (some "b")]
      (by simp) rfl).1⟩

/-- C5: compiling a wildcard leaf on a declared field emits `col LIKE ?`
and one bind obtained by translating `*` to `%` and `?` to `_` exactly
once and then parsing against the declared shape; the default evaluation
wildcard rule matches the raw untranslated operand against the value with
shell-glob semantics. -/
theorem c5_wildcard {F D : Type} (p : Sqlite.Parsers F D)
    (rm : String → String → Bool) :
    (∀ (renames : Sqlite.SqliteRenames) (types : Sqlite.SqliteTypes F D)
        (k t : String) (ty : Sqlite.SqliteType F D),
        types.lookup k = some ty →
        Sqlite.interpret_expression p (Node.Wildcard k t) renames types =
          (ty.replace_and_return p
              (strReplace (strReplace t "*" "%") "?" "_")).map
            (fun b => ((renames.lookup k).getD k ++ " LIKE ?", [b]))) ∧
      (∀ (k t : String) (rules : Evaluate.EvaluateRules)
          (pairs : Evaluate.EvaluatePairs) (v : String),
        rules.lookup k = some (Evaluate.EvaluateRule.default rm) →
        pairs.lookup k = some v →
        Evaluate.interpret_expression (Node.Wildcard k t) rules pairs =
          wildMatch t v) := by
  constructor
  · intro renames types k t ty hty
    cases hb : ty.replace_and_return p
        (strReplace (strReplace t "*" "%") "?" "_") with
    | error e =>
      simp [Sqlite.interpret_expression, Sqlite.keyBinder, hty, hb, Except.map]
    | ok b =>
      simp [Sqlite.interpret_expression, Sqlite.keyBinder, hty, hb, Except.map]
  · intro k t rules pairs v hr hv
    simp [Evaluate.interpret_expression, hr, hv,
      Evaluate.EvaluateRule.default]

/-- C5 witness: concrete wildcard compilation and evaluation. -/
theorem c5_wildcard_witness :
    Sqlite.interpret_expression unitParsers (Node.Wildcard "k" "a*b?")
        [("k", "col")] [("k", Sqlite.SqliteType.Text none)] =
        Except.ok ("col LIKE ?", [Sqlite.SqliteType.Text (some "a%b_")]) ∧
      Evaluate.interpret_expression (Node.Wildcard "k" "a*b")
        [("k", Evaluate.EvaluateRule.default rmFalse)] [("k", "aXYb")] =
        true :=
  ⟨(c5_wildcard unitParsers rmFalse).1 [("k", "col")]
      [("k", Sqlite.SqliteType.Text none)] "k" "a*b?"
      (Sqlite.SqliteType.Text none) rfl,
    (c5_wildcard unitParsers rmFalse).2 "k" "a*b"
      [("k", Evaluate.EvaluateRule.default rmFalse)] [("k", "aXYb")] "aXYb"
      rfl rfl⟩

/-- C6: conjunction compiles to `(L AND R)`, disjunction to `(L OR R)`,
each with the bind lists concatenated left-then-right, and negation to
`(NOT F)` with the inner bind list unchanged. -/
theorem c6_connectives {F D : Type} (p : Sqlite.Parsers F D)
    (renames : Sqlite.SqliteRenames) (types : Sqlite.SqliteTypes F D) :
    (∀ (l r : Node) (lf rf : String)
        (lb rb : List (Sqlite.SqliteType F D)),
        Sqlite.interpret_expression p l renames types = .ok (lf, lb) →
        Sqlite.interpret_expression p r renames types = .ok (rf, rb) →
        Sqlite.interpret_expression p (Node.And l r) renames types =
          Except.ok ("(" ++ lf ++ " AND " ++ rf ++ ")", lb ++ rb)) ∧
      (∀ (l r : Node) (lf rf : String)
          (lb rb : List (Sqlite.SqliteType F D)),
        Sqlite.interpret_expression p l renames types = .ok (lf, lb) →
        Sqlite.interpret_expression p r renames types = .ok (rf, rb) →
        Sqlite.interpret_expression p (Node.Or l r) renames types =
          Except.ok ("(" ++ lf ++ " OR " ++ rf ++ ")", lb ++ rb)) ∧
      (∀ (e : Node) (frag : String) (b : List (Sqlite.SqliteType F D)),
        Sqlite.interpret_expression p e renames types = .ok (frag, b) →
        Sqlite.interpret_expression p (Node.Not e) renames types =
          Except.ok ("(NOT " ++ frag ++ ")", b)) := by
  refine ⟨?_, ?_, ?_⟩
  · intro l r lf rf lb rb hl hr
    simp [Sqlite.interpret_expression, hl, hr]
  · intro l r lf rf lb rb hl hr
    simp [Sqlite.interpret_expression, hl, hr]
  · intro e frag b he
    simp [Sqlite.interpret_expression, he]

/-- C6 witness: the spec's Example 6 with text-typed fields. -/
theorem c6_connectives_witness :
    Sqlite.interpret_expression unitParsers
        (Node.And (Node.Equal "a" "1") (Node.Equal "b" "2")) []
        [("a", Sqlite.SqliteType.Text none), ("b", Sqlite.SqliteType.Text none)] =
      Except.ok ("(a = ? AND b = ?)",
        [Sqlite.SqliteType.Text (some "1"), Sqlite.SqliteType.Text (some "2")]) :=
  (c6_connectives unitParsers []
      [("a", Sqlite.SqliteType.Text none), ("b", Sqlite.SqliteType.Text none)]).1
    (Node.Equal "a" "1") (Node.Equal "b" "2") "a = ?" "b = ?"
    [Sqlite.SqliteType.Text (some "1")] [Sqlite.SqliteType.Text (some "2")]
    rfl rfl

/-- C7: a regex leaf on a declared field whose operand parses compiles to
the plain equality fragment `col = ?` with exactly one bind holding the
operand parsed as-is. -/
theorem c7_regex_equality {F D : Type} (p : Sqlite.Parsers F D)
    (renames : Sqlite.SqliteRenames) (types : Sqlite.SqliteTypes F D)
    (k t : String) (ty : Sqlite.SqliteType F D) (b : Sqlite.SqliteType F D)
    (hty : types.lookup k = some ty)
    (hb : ty.replace_and_return p t = .ok b) :
    Sqlite.interpret_expression p (Node.Regex k t) renames types =
      Except.ok ((renames.lookup k).getD k ++ " = ?", [b]) := by
  simp [Sqlite.interpret_expression, Sqlite.keyBinder, hty, hb]

/-- C7 witness: a concrete regex leaf compiles to equality. -/
theorem c7_regex_equality_witness :
    Sqlite.interpret_expression unitParsers (Node.Regex "k" "pat") []
        [("k", Sqlite.SqliteType.Text none)] =
      Except.ok ("k = ?", [Sqlite.SqliteType.Text (some "pat")]) :=
  c7_regex_equality unitParsers [] [("k", Sqlite.SqliteType.Text none)]
    "k" "pat" (Sqlite.SqliteType.Text none)
    (Sqlite.SqliteType.Text (some "pat")) rfl rfl

/-- C8: the default greater-than and less-than rules are lexicographic
string comparison, not numeric (lexicographically "9" exceeds "30"); and
the AST of the query `(!(age > "30"))` evaluates to true against the
record `{age: "25"}` under the default rule for `age`. -/
theorem c8_lexicographic_order (rm : String → String → Bool) :
    (∀ v t : String,
        (Evaluate.EvaluateRule.default rm).is_greater_than v t =
          strLt t.data v.data) ∧
      (∀ v t : String,
        (Evaluate.EvaluateRule.default rm).is_less_than v t =
          strLt v.data t.data) ∧
      (Evaluate.EvaluateRule.default rm).is_greater_than "9" "30" = true ∧
      Evaluate.interpret_expression (Node.Not (Node.Greater "age" "30"))
        [("age", Evaluate.EvaluateRule.default rm)] [("age", "25")] = true :=
  ⟨fun _ _ => rfl, fun _ _ => rfl, rfl, rfl⟩

/-- C8 witness: the lexicographic comparison at a concrete input. -/
theorem c8_lexicographic_order_witness :
    (Evaluate.EvaluateRule.default rmFalse).is_greater_than "9" "30" = true :=
  (c8_lexicographic_order rmFalse).2.2.1
